import Mathlib

/-!
Shallow embedding of the restaurant-reservation backend
(`RestaurantBackend/routes/restaurants.js`, `routes/auth.js`,
`config/database.js`) and proofs about its reservation lifecycle,
catalog search and authentication behaviour.

Strings (ISO dates `YYYY-MM-DD`, times `HH:MM`, names) are compared by
the executable lexicographic order on their character codes; for ISO
dates this coincides with chronological order, which is what the
JavaScript `new Date(a) < new Date(b)` comparison computes on valid
inputs.  Timestamps (`CURRENT_TIMESTAMP`) are modelled as an abstract
`Nat` clock value passed to each operation.  SQL result sets are lists
of rows; `LIMIT`/`OFFSET` become `List.take`/`List.drop`.
-/

/-- Character codes of a string, used for executable lexicographic
comparison (models JavaScript string/date comparison). -/
def codes (s : String) : List Nat :=
  s.data.map (fun c => c.toNat)

/-- Strict lexicographic order on code lists. -/
def natLexLt : List Nat → List Nat → Bool
  | _, [] => false
  | [], _ :: _ => true
  | a :: as, b :: bs => a < b || (a == b && natLexLt as bs)

/-- Reflexive lexicographic order: `a ≤ b` iff not `b < a`. -/
def natLexLe (a b : List Nat) : Bool :=
  !(natLexLt b a)

/-- Model of `new Date(a) < today` for ISO date strings. -/
def dateLtb (a b : String) : Bool :=
  natLexLt (codes a) (codes b)

/-- Reservation status enum (`ENUM('confirmed','cancelled','completed')`
in the schema). -/
inductive RStatus
  | confirmed
  | cancelled
  | completed
deriving DecidableEq

/-- String stored in the `status` column for each enum value. -/
def statusStr : RStatus → String
  | .confirmed => "confirmed"
  | .cancelled => "cancelled"
  | .completed => "completed"

/-- Row of the `reservations` table. `special_requests` is nullable
(`none` models SQL NULL). `updated_at` is the abstract clock value of
the last write. -/
structure Reservation where
  id : Nat
  user_id : Nat
  restaurant_id : Nat
  rdate : String
  rtime : String
  people_count : Nat
  status : RStatus
  special_requests : Option String
  updated_at : Nat
deriving DecidableEq

/-- Row of the `restaurants` table.  `rating` is stored in tenths
(`48` models `4.8`), keeping the numeric comparator of the source
(`b.rating - a.rating`) exact. -/
structure Restaurant where
  id : Nat
  name : String
  location : String
  description : String
  image_url : String
  rating : Nat
  price_range : String
  cuisine_type : String
deriving DecidableEq

/-- Row of the `users` table; `password` holds the bcrypt hash. -/
structure User where
  id : Nat
  name : String
  email : String
  password : String
deriving DecidableEq

/-- JavaScript truthiness of an optional string field of `req.body`
(`undefined` and the empty string are falsy). -/
def truthyStr : Option String → Bool
  | none => false
  | some s => !(s == "")

/-- JavaScript truthiness of an optional numeric field of `req.body`
(`undefined` and `0` are falsy). -/
def truthyNat : Option Nat → Bool
  | none => false
  | some n => !(n == 0)

/-- Body of `POST /reservations` after `express-validator` has accepted
it (`restaurant_id`, ISO `date`, `HH:MM` `time`, `people_count` in
bounds, optional `special_requests`). -/
structure CreateReq where
  restaurant_id : Nat
  date : String
  time : String
  people_count : Nat
  special_requests : Option String
deriving DecidableEq

/-- Body of `PUT /reservations/:id` after validation; every field is
optional (`none` models an absent key, i.e. `undefined`). -/
structure UpdateReq where
  date : Option String
  time : Option String
  people_count : Option Nat
  special_requests : Option String
deriving DecidableEq

/-- Outcome of the create handler. -/
inductive CreateRes
  | restaurantNotFound
  | pastDate
  | created (r : Reservation)
  | internalError
deriving DecidableEq

/-- Outcome of the update handler. -/
inductive UpdRes
  | notFound
  | invalidState
  | pastDate
  | noFields
  | updated (r : Reservation)
  | internalError
deriving DecidableEq

/-- Outcome of the cancel handler. -/
inductive CancelRes
  | notFound
  | alreadyCancelled
  | ok
  | internalError
deriving DecidableEq

/-- Outcome of `GET /reservations/:id`. -/
inductive GetRes
  | notFound
  | found (r : Reservation)
deriving DecidableEq

/-- Model of `SELECT * FROM reservations WHERE id = ? AND user_id = ?`
(first matching row, as `rows[0]` reads it). -/
def findOwned (db : List Reservation) (id uid : Nat) : Option Reservation :=
  db.find? (fun r => r.id == id && r.user_id == uid)

/-- Model of `special_requests || null`: the empty string (and absence)
is coerced to SQL NULL. -/
def coerceSpecial : Option String → Option String
  | none => none
  | some s => if s == "" then none else some s

/-- Handler of `POST /reservations` (restaurants.js lines 271–354),
after authentication and input validation: checks the restaurant
exists, rejects dates strictly before today, inserts a confirmed row
with fresh id `newId`, and re-reads the inserted row by id. -/
def createReservation (restaurants : List Restaurant)
    (db : List Reservation) (uid : Nat) (today : String) (now newId : Nat)
    (req : CreateReq) : CreateRes × List Reservation :=
  match restaurants.find? (fun rest => rest.id == req.restaurant_id) with
  | none => (.restaurantNotFound, db)
  | some _ =>
    if dateLtb req.date today then (.pastDate, db)
    else
      let row : Reservation :=
        { id := newId, user_id := uid, restaurant_id := req.restaurant_id,
          rdate := req.date, rtime := req.time,
          people_count := req.people_count, status := .confirmed,
          special_requests := coerceSpecial req.special_requests,
          updated_at := now }
      let db2 := db ++ [row]
      match db2.find? (fun r => r.id == newId) with
      | some r2 => (.created r2, db2)
      | none => (.internalError, db2)

/-- Model of the `if (date) { ... new Date(date) < today ... }` guard of
the update handler: the past-date rejection fires only when `date` is
truthy and strictly before today. -/
def updatePastRejected (req : UpdateReq) (today : String) : Bool :=
  match req.date with
  | some d => !(d == "") && dateLtb d today
  | none => false

/-- Model of the dynamic `updateFields` build (restaurants.js lines
530–556): `date`, `time`, `people_count` count as supplied when truthy,
`special_requests` when not `undefined`. -/
def hasUpdatableField (req : UpdateReq) : Bool :=
  truthyStr req.date || truthyStr req.time ||
    truthyNat req.people_count || req.special_requests.isSome

/-- Effect of the dynamic `UPDATE reservations SET ...` statement on one
row: each supplied field is overwritten (`special_requests` through the
`|| null` coercion), unsupplied fields keep their values, and
`updated_at` is set to the current clock. -/
def applyUpdate (r : Reservation) (req : UpdateReq) (now : Nat) : Reservation :=
  { r with
    rdate := if truthyStr req.date then req.date.getD r.rdate else r.rdate,
    rtime := if truthyStr req.time then req.time.getD r.rtime else r.rtime,
    people_count :=
      if truthyNat req.people_count then req.people_count.getD r.people_count
      else r.people_count,
    special_requests :=
      match req.special_requests with
      | none => r.special_requests
      | some s => if s == "" then none else some s,
    updated_at := now }

/-- Handler of `PUT /reservations/:id` (restaurants.js lines 470–593),
after authentication and input validation: ownership lookup, terminal
status check, optional past-date check, no-fields check, then the
dynamic UPDATE by id followed by a re-read of the row by id. -/
def updateReservation (db : List Reservation) (id uid : Nat)
    (today : String) (now : Nat) (req : UpdateReq) :
    UpdRes × List Reservation :=
  match findOwned db id uid with
  | none => (.notFound, db)
  | some r =>
    if r.status == .cancelled || r.status == .completed then
      (.invalidState, db)
    else if updatePastRejected req today then (.pastDate, db)
    else if !(hasUpdatableField req) then (.noFields, db)
    else
      let db2 := db.map (fun x => if x.id == id then applyUpdate x req now else x)
      match db2.find? (fun x => x.id == id) with
      | some r2 => (.updated r2, db2)
      | none => (.internalError, db2)

/-- Handler of `DELETE /reservations/:id` (restaurants.js lines
596–646): ownership lookup, then rejection only when the status is
already `cancelled`; otherwise the row's status is set to `cancelled`
(soft delete) and `updated_at` refreshed. -/
def cancelReservation (db : List Reservation) (id uid : Nat) (now : Nat) :
    CancelRes × List Reservation :=
  match findOwned db id uid with
  | none => (.notFound, db)
  | some r =>
    if r.status == .cancelled then (.alreadyCancelled, db)
    else
      (.ok,
        db.map (fun x =>
          if x.id == id then { x with status := .cancelled, updated_at := now }
          else x))

/-- Handler of `GET /reservations/:id` (restaurants.js lines 427–467):
returns the row owned by the caller, else 404. -/
def getOwnedReservation (db : List Reservation) (id uid : Nat) : GetRes :=
  match findOwned db id uid with
  | none => .notFound
  | some r => .found r

/-- Ordering of `GET /user/reservations`: `ORDER BY r.date DESC,
r.time DESC`.  `resLe a b` holds when row `a` may precede row `b`. -/
def resLe (a b : Reservation) : Bool :=
  natLexLt (codes b.rdate) (codes a.rdate) ||
    (a.rdate == b.rdate && natLexLe (codes b.rtime) (codes a.rtime))

/-- Model of `['confirmed', 'cancelled', 'completed'].includes(status)`. -/
def knownStatus (s : String) : Bool :=
  (["confirmed", "cancelled", "completed"] : List String).contains s

/-- WHERE clause of the `GET /user/reservations` query: always filters
on `user_id`, and additionally on `status` exactly when the query
parameter is truthy and one of the three known statuses. -/
def userListFilter (db : List Reservation) (uid : Nat)
    (statusFilter : Option String) : List Reservation :=
  let base := db.filter (fun r => r.user_id == uid)
  match statusFilter with
  | none => base
  | some s =>
    if !(s == "") && knownStatus s then
      base.filter (fun r => statusStr r.status == s)
    else base

/-- Handler of `GET /user/reservations` (restaurants.js lines 357–424):
filter, order by date/time descending, then `LIMIT ? OFFSET ?`. -/
def listForUser (db : List Reservation) (uid : Nat)
    (statusFilter : Option String) (limit offset : Nat) : List Reservation :=
  (((userListFilter db uid statusFilter).mergeSort resLe).drop offset).take limit

/-- Count query of `GET /user/reservations` (restaurants.js lines
391–400): same WHERE clause as the listing, no pagination. -/
def countForUser (db : List Reservation) (uid : Nat)
    (statusFilter : Option String) : Nat :=
  (userListFilter db uid statusFilter).length

/-- Matching of a pattern at the start of a code list. -/
def matchesAt : List Nat → List Nat → Bool
  | [], _ => true
  | _ :: _, [] => false
  | a :: as, b :: bs => a == b && matchesAt as bs

/-- Contiguous-substring containment on code lists (the empty pattern
is contained everywhere, as with JavaScript `includes('')`). -/
def hasSub : List Nat → List Nat → Bool
  | _, [] => true
  | [], _ :: _ => false
  | b :: bs, a :: as => matchesAt (a :: as) (b :: bs) || hasSub bs (a :: as)

/-- Case-insensitive substring test, modelling
`a.toLowerCase().includes(b.toLowerCase())`. -/
def strIncludes (hay needle : String) : Bool :=
  hasSub (codes hay.toLower) (codes needle.toLower)

/-- Filter pipeline of `inMemoryQueries.getRestaurants` (database.js
lines 128–151): each truthy query parameter adds one filter; `search`
matches name or location, `location` matches location, `cuisine`
matches the cuisine tag. -/
def applyFilters (cat : List Restaurant)
    (search location cuisine : Option String) : List Restaurant :=
  let f1 :=
    if truthyStr search then
      cat.filter (fun r =>
        strIncludes r.name (search.getD "") ||
          strIncludes r.location (search.getD ""))
    else cat
  let f2 :=
    if truthyStr location then
      f1.filter (fun r => strIncludes r.location (location.getD ""))
    else f1
  if truthyStr cuisine then
    f2.filter (fun r => strIncludes r.cuisine_type (cuisine.getD ""))
  else f2

/-- Catalog sort comparator (database.js lines 154–157, and
`ORDER BY rating DESC, name ASC` of the SQL path): rating descending,
name ascending on ties. -/
def restLe (a b : Restaurant) : Bool :=
  b.rating < a.rating ||
    (a.rating == b.rating && natLexLe (codes a.name) (codes b.name))

/-- Filtered and ordered catalog, before pagination. -/
def catalogSorted (cat : List Restaurant)
    (search location cuisine : Option String) : List Restaurant :=
  (applyFilters cat search location cuisine).mergeSort restLe

/-- Body of `inMemoryQueries.getRestaurants` (database.js lines
127–164): filter, sort, `slice(offset, offset + limit)`, and the total
of the filtered set before pagination. -/
def getRestaurants (cat : List Restaurant)
    (search location cuisine : Option String) (limit offset : Nat) :
    List Restaurant × Nat :=
  let filtered := catalogSorted cat search location cuisine
  ((filtered.drop offset).take limit, filtered.length)

/-- Pagination envelope of the catalog handler (restaurants.js lines
18–29): `page`, `limit`, `total`, and `pages = Math.ceil(total/limit)`
(for naturals, `(total + limit - 1) / limit`). -/
structure Pagination where
  page : Nat
  limit : Nat
  total : Nat
  pages : Nat
deriving DecidableEq

/-- Handler of `GET /restaurants` (restaurants.js lines 7–120):
`offset = (page - 1) * limit`, query, then the envelope with
`pages = Math.ceil(total / limit)`. -/
def getRestaurantsPage (cat : List Restaurant)
    (search location cuisine : Option String) (page limit : Nat) :
    List Restaurant × Pagination :=
  let res := getRestaurants cat search location cuisine limit ((page - 1) * limit)
  (res.1, ⟨page, limit, res.2, (res.2 + limit - 1) / limit⟩)

/-- Outcome of `POST /auth/login`.  Failures carry the HTTP status code
and the response message, so that distinct failure responses are
distinguishable values. -/
inductive LoginRes
  | failure (code : Nat) (message : String)
  | success (id : Nat) (name email : String)
deriving DecidableEq

/-- Handler of `POST /auth/login` (auth.js lines 92–160), after input
validation: look up the user by email (`rows[0]`), then verify the
password with `bcrypt.compare`, modelled by the abstract predicate
`bverify password storedHash`. -/
def login (bverify : String → String → Bool) (users : List User)
    (email password : String) : LoginRes :=
  match users.find? (fun u => u.email == email) with
  | none => .failure 401 "Invalid email or password"
  | some u =>
    if bverify password u.password then .success u.id u.name u.email
    else .failure 401 "Invalid email or password"

/-- Global backend state: whether the MySQL pool can hand out
connections, the fallback flag set by `initDatabase` (database.js lines
29–45), the relational rows, and the in-memory catalog. -/
structure SysState where
  mysqlUp : Bool
  usingInMemory : Bool
  restaurants : List Restaurant
  memRestaurants : List Restaurant
  reservations : List Reservation
  users : List User

/-- Model of `initDatabase`: when connecting to MySQL fails the
fallback flag is raised and the in-memory data seeded; otherwise the
flag stays down. -/
def initDatabase (st : SysState) : SysState :=
  if st.mysqlUp then { st with usingInMemory := false }
  else { st with usingInMemory := true }

/-- Outcome of the catalog endpoint. -/
inductive CatalogRes
  | catalog (items : List Restaurant) (pg : Pagination)
  | internalError
deriving DecidableEq

/-- Outcome of the user-reservations listing endpoint. -/
inductive ListRes
  | listed (items : List Reservation) (pg : Pagination)
  | internalError
deriving DecidableEq

/-- Outcome of `GET /reservations/:id` at the endpoint level. -/
inductive GetResH
  | notFound
  | found (r : Reservation)
  | internalError
deriving DecidableEq

/-- Endpoint `GET /restaurants`: checks `isUsingInMemory()` first and
serves the in-memory catalog when the fallback is active; only
otherwise does it touch the MySQL pool (restaurants.js lines 7–120). -/
def getRestaurantsHandler (st : SysState)
    (search location cuisine : Option String) (page limit : Nat) :
    CatalogRes :=
  if st.usingInMemory then
    let res := getRestaurantsPage st.memRestaurants search location cuisine page limit
    .catalog res.1 res.2
  else if st.mysqlUp then
    let res := getRestaurantsPage st.restaurants search location cuisine page limit
    .catalog res.1 res.2
  else .internalError

/-- Endpoint `POST /reservations`: goes straight to
`pool.getConnection()` with no fallback check (restaurants.js lines
271–354); when the pool is down the thrown error is caught and a 500
returned. -/
def createReservationHandler (st : SysState) (uid : Nat) (today : String)
    (now newId : Nat) (req : CreateReq) : CreateRes × SysState :=
  if st.mysqlUp then
    let res := createReservation st.restaurants st.reservations uid today now newId req
    (res.1, { st with reservations := res.2 })
  else (.internalError, st)

/-- Endpoint `GET /user/reservations`: no fallback check (restaurants.js
lines 357–424). -/
def listForUserHandler (st : SysState) (uid : Nat)
    (statusFilter : Option String) (page limit : Nat) : ListRes :=
  if st.mysqlUp then
    let items := listForUser st.reservations uid statusFilter limit ((page - 1) * limit)
    let total := countForUser st.reservations uid statusFilter
    .listed items ⟨page, limit, total, (total + limit - 1) / limit⟩
  else .internalError

/-- Endpoint `GET /reservations/:id`: no fallback check (restaurants.js
lines 427–467). -/
def getOwnedHandler (st : SysState) (id uid : Nat) : GetResH :=
  if st.mysqlUp then
    match getOwnedReservation st.reservations id uid with
    | .notFound => .notFound
    | .found r => .found r
  else .internalError

/-- Endpoint `PUT /reservations/:id`: no fallback check (restaurants.js
lines 470–593). -/
def updateReservationHandler (st : SysState) (id uid : Nat)
    (today : String) (now : Nat) (req : UpdateReq) : UpdRes × SysState :=
  if st.mysqlUp then
    let res := updateReservation st.reservations id uid today now req
    (res.1, { st with reservations := res.2 })
  else (.internalError, st)

/-- Endpoint `DELETE /reservations/:id`: no fallback check
(restaurants.js lines 596–646). -/
def cancelReservationHandler (st : SysState) (id uid : Nat) (now : Nat) :
    CancelRes × SysState :=
  if st.mysqlUp then
    let res := cancelReservation st.reservations id uid now
    (res.1, { st with reservations := res.2 })
  else (.internalError, st)

/-- Primary-key invariant of the `reservations` table: ids are
pairwise distinct. -/
def UniqueIds (db : List Reservation) : Prop :=
  (db.map Reservation.id).Nodup

/-! ### Order lemmas for the lexicographic comparison -/

theorem natLexLt_irrefl (l : List Nat) : natLexLt l l = false := by
  induction l with
  | nil => rfl
  | cons x xs ih => simp [natLexLt, ih]

theorem natLexLt_trans : ∀ {a b c : List Nat},
    natLexLt a b = true → natLexLt b c = true → natLexLt a c = true := by
  intro a
  induction a with
  | nil =>
    intro b c h1 h2
    cases b with
    | nil => simp [natLexLt] at h1
    | cons y ys =>
      cases c with
      | nil => simp [natLexLt] at h2
      | cons z zs => simp [natLexLt]
  | cons x xs ih =>
    intro b c h1 h2
    cases b with
    | nil => simp [natLexLt] at h1
    | cons y ys =>
      cases c with
      | nil => simp [natLexLt] at h2
      | cons z zs =>
        simp [natLexLt] at h1 h2 ⊢
        rcases h1 with h1 | ⟨hxy, h1⟩
        · rcases h2 with h2 | ⟨hyz, h2⟩
          · exact Or.inl (h1.trans h2)
          · exact Or.inl (hyz ▸ h1)
        · rcases h2 with h2 | ⟨hyz, h2⟩
          · exact Or.inl (hxy ▸ h2)
          · exact Or.inr ⟨hxy.trans hyz, ih h1 h2⟩

theorem natLexLt_conn : ∀ (a b : List Nat),
    natLexLt a b = true ∨ natLexLt b a = true ∨ a = b := by
  intro a
  induction a with
  | nil =>
    intro b
    cases b with
    | nil => exact Or.inr (Or.inr rfl)
    | cons y ys => exact Or.inl (by simp [natLexLt])
  | cons x xs ih =>
    intro b
    cases b with
    | nil => exact Or.inr (Or.inl (by simp [natLexLt]))
    | cons y ys =>
      rcases Nat.lt_trichotomy x y with h | h | h
      · exact Or.inl (by simp [natLexLt, h])
      · rcases ih ys with h2 | h2 | h2
        · exact Or.inl (by simp [natLexLt, h, h2])
        · exact Or.inr (Or.inl (by simp [natLexLt, h, h2]))
        · exact Or.inr (Or.inr (by simp [h, h2]))
      · exact Or.inr (Or.inl (by simp [natLexLt, h]))

theorem natLexLt_asymm {a b : List Nat} (h : natLexLt a b = true) :
    natLexLt b a = false := by
  by_contra hc
  have h2 : natLexLt b a = true := by
    cases hba : natLexLt b a with
    | false => exact absurd hba hc
    | true => rfl
  have := natLexLt_trans h h2
  rw [natLexLt_irrefl] at this
  exact Bool.false_ne_true this

theorem natLexLe_total (a b : List Nat) :
    natLexLe a b = true ∨ natLexLe b a = true := by
  rcases natLexLt_conn a b with h | h | h
  · exact Or.inl (by simp [natLexLe, natLexLt_asymm h])
  · exact Or.inr (by simp [natLexLe, natLexLt_asymm h])
  · exact Or.inl (by simp [natLexLe, h, natLexLt_irrefl])

theorem natLexLe_trans {a b c : List Nat} (h1 : natLexLe a b = true)
    (h2 : natLexLe b c = true) : natLexLe a c = true := by
  simp [natLexLe] at h1 h2 ⊢
  cases hca : natLexLt c a with
  | false => rfl
  | true =>
    exfalso
    rcases natLexLt_conn a b with h | h | h
    · have := natLexLt_trans hca h
      rw [h2] at this
      exact Bool.false_ne_true this
    · rw [h1] at h
      exact Bool.false_ne_true h
    · subst h
      rw [h2] at hca
      exact Bool.false_ne_true hca

/-! ### Lookup and uniqueness lemmas -/

theorem findOwned_spec {db : List Reservation} {id uid : Nat}
    {r : Reservation} (h : findOwned db id uid = some r) :
    r ∈ db ∧ r.id = id ∧ r.user_id = uid := by
  have h1 := List.find?_some h
  have h2 := List.mem_of_find?_eq_some h
  simp at h1
  exact ⟨h2, h1.1, h1.2⟩

theorem find_by_id {db : List Reservation} {r : Reservation} {id : Nat}
    (hU : UniqueIds db) (hmem : r ∈ db) (hid : r.id = id) :
    db.find? (fun x => x.id == id) = some r := by
  induction db with
  | nil => cases hmem
  | cons x xs ih =>
    have hU2 : UniqueIds xs := by
      simp [UniqueIds] at hU ⊢
      exact hU.2
    rcases List.mem_cons.mp hmem with heq | hmemxs
    · subst heq
      simp [List.find?, hid]
    · have hxid : x.id ≠ id := by
        intro hx
        simp [UniqueIds] at hU
        exact hU.1 r hmemxs (by rw [hx, hid])
      have hb : (x.id == id) = false := by
        simp [hxid]
      simp [List.find?, hb]
      exact ih hU2 hmemxs

theorem findOwned_none_of_other {db : List Reservation} {r : Reservation}
    {id uid : Nat} (hU : UniqueIds db) (hmem : r ∈ db) (hid : r.id = id)
    (hneq : r.user_id ≠ uid) : findOwned db id uid = none := by
  rw [findOwned, List.find?_eq_none]
  intro x hx
  simp only [Bool.and_eq_true, beq_iff_eq, not_and]
  intro hxid
  have hxr : x = r := List.inj_on_of_nodup_map hU hx hmem (by rw [hxid, hid])
  rw [hxr]
  exact hneq

theorem restLe_trans (a b c : Restaurant) (h1 : restLe a b = true)
    (h2 : restLe b c = true) : restLe a c = true := by
  simp [restLe] at h1 h2 ⊢
  rcases h1 with h1 | ⟨h1e, h1n⟩
  · rcases h2 with h2 | ⟨h2e, h2n⟩
    · exact Or.inl (h2.trans h1)
    · exact Or.inl (h2e ▸ h1)
  · rcases h2 with h2 | ⟨h2e, h2n⟩
    · exact Or.inl (by omega)
    · exact Or.inr ⟨h1e.trans h2e, natLexLe_trans h1n h2n⟩

theorem restLe_total (a b : Restaurant) : (restLe a b || restLe b a) = true := by
  simp [restLe]
  rcases Nat.lt_trichotomy a.rating b.rating with h | h | h
  · exact Or.inr (Or.inl h)
  · rcases natLexLe_total (codes a.name) (codes b.name) with hn | hn
    · exact Or.inl (Or.inr ⟨h, hn⟩)
    · exact Or.inr (Or.inr ⟨h.symm, hn⟩)
  · exact Or.inl (Or.inl h)

theorem applyUpdate_id (r : Reservation) (req : UpdateReq) (now : Nat) :
    (applyUpdate r req now).id = r.id := rfl

theorem find_map_update {db : List Reservation} {r : Reservation} {id : Nat}
    (hU : UniqueIds db) (hmem : r ∈ db) (hid : r.id = id)
    (req : UpdateReq) (now : Nat) :
    (db.map (fun x => if x.id == id then applyUpdate x req now else x)).find?
      (fun x => x.id == id) = some (applyUpdate r req now) := by
  rw [List.find?_map]
  have hfun : ((fun x : Reservation => x.id == id) ∘
      (fun x => if x.id == id then applyUpdate x req now else x)) =
      (fun x : Reservation => x.id == id) := by
    funext x
    cases hx : (x.id == id) with
    | true => simp [Function.comp, hx, applyUpdate_id]
    | false => simp [Function.comp, hx]
  rw [hfun, find_by_id hU hmem hid]
  simp [hid]

theorem updateReservation_success {db : List Reservation} {id uid : Nat}
    {today : String} {now : Nat} {req : UpdateReq} {r : Reservation}
    (hU : UniqueIds db) (hown : findOwned db id uid = some r)
    (hst : (r.status == RStatus.cancelled || r.status == RStatus.completed)
      = false)
    (hpast : updatePastRejected req today = false)
    (h : hasUpdatableField req = true) :
    updateReservation db id uid today now req =
      (.updated (applyUpdate r req now),
        db.map (fun x => if x.id == id then applyUpdate x req now else x)) := by
  obtain ⟨hmem, hid, -⟩ := findOwned_spec hown
  have hf := find_map_update hU hmem hid req now
  simp [updateReservation, hown, hst, hpast, h]
  simp at hf
  obtain ⟨a, ha1, ha2⟩ := hf
  rw [ha1]
  simp [ha2]

/-! ### Claim theorems -/

/-- C1, counterexample: the DELETE handler only rejects reservations
whose status is already `cancelled`, so a `completed` reservation —
terminal according to the claim — is cancelled successfully and its
fields mutate (status becomes `cancelled`, `updated_at` refreshed). -/
theorem cancel_completed_not_blocked_cex :
    (cancelReservation
      [⟨1, 1, 1, "2026-10-12", "19:00", 2, .completed, none, 0⟩] 1 1 7).1 =
      CancelRes.ok ∧
    (cancelReservation
      [⟨1, 1, 1, "2026-10-12", "19:00", 2, .completed, none, 0⟩] 1 1 7).2 =
      [⟨1, 1, 1, "2026-10-12", "19:00", 2, .cancelled, none, 7⟩] := by
  decide

/-- C1 (amended): for an owned reservation, update fails with
InvalidState on both terminal statuses (cancelled and completed) and
leaves the table unchanged; cancel fails with InvalidState only when
the status is already cancelled (table unchanged); a completed
reservation is NOT protected from cancel: the call succeeds and
rewrites its status to cancelled. -/
theorem terminal_reservation_rules (db : List Reservation) (id uid : Nat)
    (today : String) (now nowc : Nat) (req : UpdateReq) (r : Reservation)
    (hown : findOwned db id uid = some r) :
    (r.status = .cancelled ∨ r.status = .completed →
      updateReservation db id uid today now req = (.invalidState, db)) ∧
    (r.status = .cancelled →
      cancelReservation db id uid nowc = (.alreadyCancelled, db)) ∧
    (r.status = .completed →
      cancelReservation db id uid nowc =
        (.ok, db.map (fun x =>
          if x.id == id then { x with status := .cancelled, updated_at := nowc }
          else x))) := by
  refine ⟨?_, ?_, ?_⟩
  · rintro (hst | hst) <;> simp [updateReservation, hown, hst]
  · intro hst
    simp [cancelReservation, hown, hst]
  · intro hst
    simp [cancelReservation, hown, hst]

/-- C1 witness: concrete one-row tables exercising the amended claim:
update and cancel of a cancelled reservation both fail and change
nothing. -/
theorem terminal_reservation_rules_witness :
    updateReservation [⟨1, 1, 1, "2026-10-12", "19:00", 2, .cancelled, none, 0⟩]
        1 1 "2026-10-11" 5 ⟨none, none, some 4, none⟩ =
      (.invalidState, [⟨1, 1, 1, "2026-10-12", "19:00", 2, .cancelled, none, 0⟩]) ∧
    cancelReservation [⟨1, 1, 1, "2026-10-12", "19:00", 2, .cancelled, none, 0⟩]
        1 1 5 =
      (.alreadyCancelled,
        [⟨1, 1, 1, "2026-10-12", "19:00", 2, .cancelled, none, 0⟩]) :=
  ⟨(terminal_reservation_rules
      [⟨1, 1, 1, "2026-10-12", "19:00", 2, .cancelled, none, 0⟩] 1 1
      "2026-10-11" 5 5 ⟨none, none, some 4, none⟩
      ⟨1, 1, 1, "2026-10-12", "19:00", 2, .cancelled, none, 0⟩
      (by decide)).1 (Or.inl rfl),
   (terminal_reservation_rules
      [⟨1, 1, 1, "2026-10-12", "19:00", 2, .cancelled, none, 0⟩] 1 1
      "2026-10-11" 5 5 ⟨none, none, some 4, none⟩
      ⟨1, 1, 1, "2026-10-12", "19:00", 2, .cancelled, none, 0⟩
      (by decide)).2.1 rfl⟩

/-- C2: a reservation that exists but belongs to another user is
indistinguishable from a nonexistent one: read, update and cancel all
answer NotFound (never a Forbidden-style result) and the table is
returned unchanged. -/
theorem other_owner_notfound (db : List Reservation) (id uid : Nat)
    (today : String) (now nowc : Nat) (req : UpdateReq) (r : Reservation)
    (hU : UniqueIds db) (hmem : r ∈ db) (hid : r.id = id)
    (hneq : r.user_id ≠ uid) :
    getOwnedReservation db id uid = .notFound ∧
    updateReservation db id uid today now req = (.notFound, db) ∧
    cancelReservation db id uid nowc = (.notFound, db) := by
  have hnone := findOwned_none_of_other hU hmem hid hneq
  exact ⟨by simp [getOwnedReservation, hnone],
         by simp [updateReservation, hnone],
         by simp [cancelReservation, hnone]⟩

/-- C2 witness: a table holding only user 2's reservation, addressed
by user 1. -/
theorem other_owner_notfound_witness :
    getOwnedReservation
      [⟨1, 2, 1, "2026-10-12", "19:00", 2, .confirmed, none, 0⟩] 1 1 =
      GetRes.notFound ∧
    updateReservation [⟨1, 2, 1, "2026-10-12", "19:00", 2, .confirmed, none, 0⟩]
        1 1 "2026-10-11" 5 ⟨none, none, some 4, none⟩ =
      (.notFound, [⟨1, 2, 1, "2026-10-12", "19:00", 2, .confirmed, none, 0⟩]) ∧
    cancelReservation
        [⟨1, 2, 1, "2026-10-12", "19:00", 2, .confirmed, none, 0⟩] 1 1 5 =
      (.notFound, [⟨1, 2, 1, "2026-10-12", "19:00", 2, .confirmed, none, 0⟩]) :=
  other_owner_notfound
    [⟨1, 2, 1, "2026-10-12", "19:00", 2, .confirmed, none, 0⟩] 1 1
    "2026-10-11" 5 5 ⟨none, none, some 4, none⟩
    ⟨1, 2, 1, "2026-10-12", "19:00", 2, .confirmed, none, 0⟩
    (by simp [UniqueIds]) (by simp) rfl (by decide)

/-- C4: updating an owned, non-terminal reservation (with no past-date
rejection in play) fails with the 400 no-fields response and leaves the
table untouched when nothing is supplied; otherwise it writes exactly
the supplied fields, keeps every unsupplied field, refreshes
`updated_at`, and rewrites no other row. -/
theorem update_partial_frame (db : List Reservation) (id uid : Nat)
    (today : String) (now : Nat) (req : UpdateReq) (r : Reservation)
    (hU : UniqueIds db) (hown : findOwned db id uid = some r)
    (hstc : r.status ≠ .cancelled) (hstd : r.status ≠ .completed)
    (hpast : updatePastRejected req today = false) :
    (hasUpdatableField req = false →
      updateReservation db id uid today now req = (.noFields, db)) ∧
    (hasUpdatableField req = true →
      updateReservation db id uid today now req =
        (.updated (applyUpdate r req now),
          db.map (fun x => if x.id == id then applyUpdate x req now else x)) ∧
      (∀ x : Reservation, x.id ≠ id →
        (if x.id == id then applyUpdate x req now else x) = x) ∧
      (∀ d, req.date = some d → d ≠ "" → (applyUpdate r req now).rdate = d) ∧
      (truthyStr req.date = false → (applyUpdate r req now).rdate = r.rdate) ∧
      (∀ t, req.time = some t → t ≠ "" → (applyUpdate r req now).rtime = t) ∧
      (truthyStr req.time = false → (applyUpdate r req now).rtime = r.rtime) ∧
      (∀ n, req.people_count = some n → n ≠ 0 →
        (applyUpdate r req now).people_count = n) ∧
      (truthyNat req.people_count = false →
        (applyUpdate r req now).people_count = r.people_count) ∧
      (req.special_requests = none →
        (applyUpdate r req now).special_requests = r.special_requests) ∧
      (applyUpdate r req now).updated_at = now ∧
      (applyUpdate r req now).id = r.id ∧
      (applyUpdate r req now).user_id = r.user_id ∧
      (applyUpdate r req now).restaurant_id = r.restaurant_id ∧
      (applyUpdate r req now).status = r.status) := by
  have hst : (r.status == RStatus.cancelled || r.status == RStatus.completed)
      = false := by
    cases hr : r.status <;> simp_all
  obtain ⟨hmem, hid, -⟩ := findOwned_spec hown
  constructor
  · intro h
    simp [updateReservation, hown, hst, hpast, h]
  · intro h
    refine ⟨?_, ?_, ?_, ?_, ?_, ?_, ?_, ?_, ?_, ?_, ?_, ?_, ?_, ?_⟩
    · exact updateReservation_success hU hown hst hpast h
    · intro x hx
      have hb : (x.id == id) = false := by simp [hx]
      simp [hb]
    · intro d hd hne
      simp [applyUpdate, truthyStr, hd, hne]
    · intro hts
      simp [applyUpdate, hts]
    · intro t ht hne
      simp [applyUpdate, truthyStr, ht, hne]
    · intro hts
      simp [applyUpdate, hts]
    · intro n hn hne
      simp [applyUpdate, truthyNat, hn, hne]
    · intro hts
      simp [applyUpdate, hts]
    · intro hs
      simp [applyUpdate, hs]
    · rfl
    · rfl
    · rfl
    · rfl
    · rfl

/-- C4 witness: a confirmed reservation; supplying nothing fails with
no-fields, supplying only `people_count` rewrites exactly that field
and the timestamp. -/
theorem update_partial_frame_witness :
    updateReservation [⟨1, 1, 1, "2026-10-12", "19:00", 2, .confirmed, some "x", 0⟩]
        1 1 "2026-10-11" 9 ⟨none, none, none, none⟩ =
      (.noFields, [⟨1, 1, 1, "2026-10-12", "19:00", 2, .confirmed, some "x", 0⟩]) ∧
    updateReservation [⟨1, 1, 1, "2026-10-12", "19:00", 2, .confirmed, some "x", 0⟩]
        1 1 "2026-10-11" 9 ⟨none, none, some 6, none⟩ =
      (.updated ⟨1, 1, 1, "2026-10-12", "19:00", 6, .confirmed, some "x", 9⟩,
        [⟨1, 1, 1, "2026-10-12", "19:00", 6, .confirmed, some "x", 9⟩]) := by
  constructor
  · exact (update_partial_frame
      [⟨1, 1, 1, "2026-10-12", "19:00", 2, .confirmed, some "x", 0⟩] 1 1
      "2026-10-11" 9 ⟨none, none, none, none⟩
      ⟨1, 1, 1, "2026-10-12", "19:00", 2, .confirmed, some "x", 0⟩
      (by simp [UniqueIds]) (by decide) (by decide) (by decide) (by decide)).1
      (by decide)
  · have h := (update_partial_frame
      [⟨1, 1, 1, "2026-10-12", "19:00", 2, .confirmed, some "x", 0⟩] 1 1
      "2026-10-11" 9 ⟨none, none, some 6, none⟩
      ⟨1, 1, 1, "2026-10-12", "19:00", 2, .confirmed, some "x", 0⟩
      (by simp [UniqueIds]) (by decide) (by decide) (by decide) (by decide)).2
      (by decide)
    rw [h.1]
    decide

/-- C10: whether an update field counts as supplied follows JavaScript
truthiness for `date`, `time`, `people_count` but strict
`!== undefined` for `special_requests`: empty strings for date/time and
a zero people_count are ignored (and do not defeat the no-fields
check), while an empty-string `special_requests` is applied and cleared
to NULL. -/
theorem update_suppliedness (db : List Reservation) (id uid : Nat)
    (today : String) (now : Nat) (r : Reservation)
    (hU : UniqueIds db) (hown : findOwned db id uid = some r)
    (hstc : r.status ≠ .cancelled) (hstd : r.status ≠ .completed) :
    updateReservation db id uid today now ⟨some "", some "", some 0, none⟩ =
      (.noFields, db) ∧
    updateReservation db id uid today now ⟨none, none, none, some ""⟩ =
      (.updated { r with special_requests := none, updated_at := now },
        db.map (fun x => if x.id == id then
          { x with special_requests := none, updated_at := now } else x)) ∧
    updateReservation db id uid today now ⟨some "", none, none, some "note"⟩ =
      (.updated { r with special_requests := some "note", updated_at := now },
        db.map (fun x => if x.id == id then
          { x with special_requests := some "note", updated_at := now }
          else x)) := by
  have hst : (r.status == RStatus.cancelled || r.status == RStatus.completed)
      = false := by
    cases hr : r.status <;> simp_all
  obtain ⟨hmem, hid, -⟩ := findOwned_spec hown
  refine ⟨?_, ?_, ?_⟩
  · have h1 : updatePastRejected ⟨some "", some "", some 0, none⟩ today = false := rfl
    have h2 : hasUpdatableField ⟨some "", some "", some 0, none⟩ = false := rfl
    simp [updateReservation, hown, hst, h1, h2]
  · rw [@updateReservation_success db id uid today now
      ⟨none, none, none, some ""⟩ r hU hown hst rfl rfl]
    simp [applyUpdate, truthyStr, truthyNat]
  · rw [@updateReservation_success db id uid today now
      ⟨some "", none, none, some "note"⟩ r hU hown hst rfl rfl]
    simp [applyUpdate, truthyStr, truthyNat]

/-- C10 witness: concrete one-row table exercising all three
suppliedness behaviours. -/
theorem update_suppliedness_witness :
    updateReservation [⟨1, 1, 1, "2026-10-12", "19:00", 2, .confirmed, some "x", 0⟩]
        1 1 "2026-10-11" 9 ⟨some "", some "", some 0, none⟩ =
      (.noFields, [⟨1, 1, 1, "2026-10-12", "19:00", 2, .confirmed, some "x", 0⟩]) ∧
    updateReservation [⟨1, 1, 1, "2026-10-12", "19:00", 2, .confirmed, some "x", 0⟩]
        1 1 "2026-10-11" 9 ⟨none, none, none, some ""⟩ =
      (.updated ⟨1, 1, 1, "2026-10-12", "19:00", 2, .confirmed, none, 9⟩,
        [⟨1, 1, 1, "2026-10-12", "19:00", 2, .confirmed, none, 9⟩]) := by
  have h := update_suppliedness
    [⟨1, 1, 1, "2026-10-12", "19:00", 2, .confirmed, some "x", 0⟩] 1 1
    "2026-10-11" 9 ⟨1, 1, 1, "2026-10-12", "19:00", 2, .confirmed, some "x", 0⟩
    (by simp [UniqueIds]) (by decide) (by decide) (by decide)
  refine ⟨h.1, ?_⟩
  rw [h.2.1]
  decide

/-- C3: with an existing restaurant, creating a reservation whose date
is strictly before today fails with the 400 past-date response and
persists nothing; a date equal to today passes the check and the
reservation is created with status confirmed; an update supplying a
past date on an owned, non-terminal reservation likewise fails and
persists nothing. -/
theorem past_date_policy (restaurants : List Restaurant)
    (db : List Reservation) (uid : Nat) (today : String) (now newId : Nat)
    (req : CreateReq) (rest : Restaurant)
    (hrest : restaurants.find? (fun x => x.id == req.restaurant_id)
      = some rest) :
    (dateLtb req.date today = true →
      createReservation restaurants db uid today now newId req
        = (.pastDate, db)) ∧
    (req.date = today → (∀ x ∈ db, x.id ≠ newId) →
      createReservation restaurants db uid today now newId req =
        (.created ⟨newId, uid, req.restaurant_id, req.date, req.time,
            req.people_count, .confirmed, coerceSpecial req.special_requests,
            now⟩,
          db ++ [⟨newId, uid, req.restaurant_id, req.date, req.time,
            req.people_count, .confirmed, coerceSpecial req.special_requests,
            now⟩])) ∧
    (∀ (id : Nat) (r : Reservation) (ureq : UpdateReq) (d : String),
      findOwned db id uid = some r →
      r.status ≠ .cancelled → r.status ≠ .completed →
      ureq.date = some d → d ≠ "" → dateLtb d today = true →
      updateReservation db id uid today now ureq = (.pastDate, db)) := by
  refine ⟨?_, ?_, ?_⟩
  · intro h
    simp [createReservation, hrest, h]
  · intro hd hfresh
    have hlt : dateLtb req.date today = false := by
      rw [hd, dateLtb, natLexLt_irrefl]
    have hnone : db.find? (fun r => r.id == newId) = none := by
      rw [List.find?_eq_none]
      intro x hx
      simp [hfresh x hx]
    simp [createReservation, hrest, hlt, List.find?_append, hnone]
  · intro id r ureq d hown hstc hstd hdate hne hlt
    have hst : (r.status == RStatus.cancelled || r.status == RStatus.completed)
        = false := by
      cases hr : r.status <;> simp_all
    have hpr : updatePastRejected ureq today = true := by
      simp [updatePastRejected, hdate, hne, hlt]
    simp [updateReservation, hown, hst, hpr]

/-- C3 witness: create against restaurant 1 with a date one day in the
past fails; with today's date it succeeds; updating an owned confirmed
reservation to a past date fails. -/
theorem past_date_policy_witness :
    createReservation [⟨1, "A", "loc", "d", "i", 48, "p", "c"⟩] [] 1
        "2026-10-11" 3 1 ⟨1, "2026-10-10", "19:00", 4, none⟩ =
      (.pastDate, []) ∧
    createReservation [⟨1, "A", "loc", "d", "i", 48, "p", "c"⟩] [] 1
        "2026-10-11" 3 1 ⟨1, "2026-10-11", "19:00", 4, none⟩ =
      (.created ⟨1, 1, 1, "2026-10-11", "19:00", 4, .confirmed, none, 3⟩,
        [⟨1, 1, 1, "2026-10-11", "19:00", 4, .confirmed, none, 3⟩]) ∧
    updateReservation [⟨1, 1, 1, "2026-10-12", "19:00", 2, .confirmed, none, 0⟩]
        1 1 "2026-10-11" 3 ⟨some "2026-10-01", none, none, none⟩ =
      (.pastDate, [⟨1, 1, 1, "2026-10-12", "19:00", 2, .confirmed, none, 0⟩]) := by
  refine ⟨?_, ?_, ?_⟩
  · exact (past_date_policy [⟨1, "A", "loc", "d", "i", 48, "p", "c"⟩] [] 1
      "2026-10-11" 3 1 ⟨1, "2026-10-10", "19:00", 4, none⟩
      ⟨1, "A", "loc", "d", "i", 48, "p", "c"⟩ (by decide)).1 (by decide)
  · have h := (past_date_policy [⟨1, "A", "loc", "d", "i", 48, "p", "c"⟩] [] 1
      "2026-10-11" 3 1 ⟨1, "2026-10-11", "19:00", 4, none⟩
      ⟨1, "A", "loc", "d", "i", 48, "p", "c"⟩ (by decide)).2.1 rfl
      (by intro x hx; cases hx)
    rw [h]
    decide
  · exact (past_date_policy [⟨1, "A", "loc", "d", "i", 48, "p", "c"⟩]
      [⟨1, 1, 1, "2026-10-12", "19:00", 2, .confirmed, none, 0⟩] 1
      "2026-10-11" 3 1 ⟨1, "2026-10-11", "19:00", 4, none⟩
      ⟨1, "A", "loc", "d", "i", 48, "p", "c"⟩ (by decide)).2.2 1
      ⟨1, 1, 1, "2026-10-12", "19:00", 2, .confirmed, none, 0⟩
      ⟨some "2026-10-01", none, none, none⟩ "2026-10-01"
      (by decide) (by decide) (by decide) rfl (by decide) (by decide)

/-- C5: when the status query parameter is one of the three known
statuses, the listing and the count are restricted to reservations of
the caller with exactly that status; any other value does not fail —
the filter is skipped and listing and count equal the unfiltered
result. -/
theorem status_filter_semantics (db : List Reservation) (uid : Nat)
    (s : String) (limit offset : Nat) :
    (knownStatus s = true →
      (∀ x ∈ listForUser db uid (some s) limit offset,
        statusStr x.status = s) ∧
      countForUser db uid (some s) =
        (db.filter (fun r => r.user_id == uid && statusStr r.status == s)).length) ∧
    (knownStatus s = false →
      listForUser db uid (some s) limit offset =
        listForUser db uid none limit offset ∧
      countForUser db uid (some s) = countForUser db uid none) := by
  constructor
  · intro h
    have hks : s = "confirmed" ∨ s = "cancelled" ∨ s = "completed" := by
      simpa [knownStatus] using h
    have hne : (s == "") = false := by
      rcases hks with h1 | h1 | h1 <;> subst h1 <;> decide
    have hfilter : userListFilter db uid (some s) =
        db.filter (fun r => r.user_id == uid && statusStr r.status == s) := by
      simp [userListFilter, hne, h, List.filter_filter]
      apply List.filter_congr
      intro x hx
      exact Bool.and_comm _ _
    constructor
    · intro x hx
      have h1 : x ∈ ((userListFilter db uid (some s)).mergeSort resLe).drop offset :=
        (List.take_sublist _ _).subset hx
      have h2 : x ∈ (userListFilter db uid (some s)).mergeSort resLe :=
        (List.drop_sublist _ _).subset h1
      have h3 : x ∈ userListFilter db uid (some s) :=
        (List.mergeSort_perm _ _).subset h2
      rw [hfilter] at h3
      have h4 := (List.mem_filter.mp h3).2
      simp at h4
      exact h4.2
    · simp [countForUser, hfilter]
  · intro h
    constructor
    · simp [listForUser, userListFilter, h]
    · simp [countForUser, userListFilter, h]

/-- C5 witness: a two-row table; filtering on "cancelled" counts one
row, filtering on the unknown value "zzz" behaves as no filter. -/
theorem status_filter_semantics_witness :
    countForUser
      [⟨1, 1, 1, "2026-10-12", "19:00", 2, .confirmed, none, 0⟩,
       ⟨2, 1, 1, "2026-10-13", "20:00", 2, .cancelled, none, 0⟩] 1
      (some "cancelled") = 1 ∧
    listForUser
      [⟨1, 1, 1, "2026-10-12", "19:00", 2, .confirmed, none, 0⟩,
       ⟨2, 1, 1, "2026-10-13", "20:00", 2, .cancelled, none, 0⟩] 1
      (some "zzz") 10 0 =
    listForUser
      [⟨1, 1, 1, "2026-10-12", "19:00", 2, .confirmed, none, 0⟩,
       ⟨2, 1, 1, "2026-10-13", "20:00", 2, .cancelled, none, 0⟩] 1
      none 10 0 := by
  constructor
  · have h := ((status_filter_semantics
      [⟨1, 1, 1, "2026-10-12", "19:00", 2, .confirmed, none, 0⟩,
       ⟨2, 1, 1, "2026-10-13", "20:00", 2, .cancelled, none, 0⟩] 1
      "cancelled" 10 0).1 (by decide)).2
    rw [h]
    decide
  · exact ((status_filter_semantics
      [⟨1, 1, 1, "2026-10-12", "19:00", 2, .confirmed, none, 0⟩,
       ⟨2, 1, 1, "2026-10-13", "20:00", 2, .cancelled, none, 0⟩] 1
      "zzz" 10 0).2 (by decide)).1

/-- C6: in every catalog search result page, whenever restaurant A
appears before restaurant B, either A's rating is strictly greater, or
the ratings are equal and A's name is lexicographically at most B's
(rating descending, name ascending tie-break). -/
theorem catalog_ordering (cat : List Restaurant)
    (search location cuisine : Option String) (limit offset : Nat) :
    ((getRestaurants cat search location cuisine limit offset).1).Pairwise
      (fun a b => b.rating < a.rating ∨
        (a.rating = b.rating ∧ natLexLe (codes a.name) (codes b.name) = true)) := by
  have hs : ((applyFilters cat search location cuisine).mergeSort restLe).Pairwise
      (fun a b => restLe a b = true) :=
    List.sorted_mergeSort (fun a b c h1 h2 => restLe_trans a b c h1 h2)
      (fun a b => restLe_total a b) _
  have hsub : ((getRestaurants cat search location cuisine limit offset).1).Sublist
      ((applyFilters cat search location cuisine).mergeSort restLe) := by
    simp only [getRestaurants, catalogSorted]
    exact (List.take_sublist _ _).trans (List.drop_sublist _ _)
  refine (hs.sublist hsub).imp ?_
  intro a b hab
  simpa [restLe] using hab

/-- Splitting a list into `k`-sized chunks and concatenating them in
order reproduces the list, provided enough chunks are taken. -/
theorem flatten_chunks {α : Type} (k : Nat) (hk : 0 < k) :
    ∀ (n : Nat) (l : List α), l.length ≤ n * k →
      ((List.range n).map (fun i => (l.drop (i * k)).take k)).flatten = l := by
  intro n
  induction n with
  | zero =>
    intro l hl
    simp at hl
    simp [hl]
  | succ n ih =>
    intro l hl
    rw [List.range_succ_eq_map]
    simp only [List.map_cons, List.map_map, List.flatten_cons, Nat.zero_mul,
      List.drop_zero]
    have hmap : ∀ i ∈ List.range n,
        ((fun i => (l.drop (i * k)).take k) ∘ Nat.succ) i =
          (fun i => (((l.drop k).drop (i * k)).take k)) i := by
      intro i hi
      have hik : k + i * k = (i + 1) * k := by ring
      simp [Function.comp, List.drop_drop, hik]
    rw [List.map_congr_left hmap]
    rw [Nat.succ_mul] at hl
    have hlen : (l.drop k).length ≤ n * k := by
      simp [List.length_drop]
      omega
    rw [ih (l.drop k) hlen]
    exact List.take_append_drop k l

/-- The ceiling quotient `(len + k - 1) / k` of naturals covers `len`. -/
theorem le_ceil_mul (len k : Nat) (hk : 0 < k) :
    len ≤ ((len + k - 1) / k) * k := by
  by_contra hc
  push_neg at hc
  have hs : ((len + k - 1) / k + 1) * k = ((len + k - 1) / k) * k + k := by
    ring
  have h1 : ((len + k - 1) / k + 1) * k ≤ len + k - 1 := by omega
  have h2 : (len + k - 1) / k + 1 ≤ (len + k - 1) / k :=
    (Nat.le_div_iff_mul_le hk).mpr h1
  omega

/-- One page fewer than the ceiling quotient does not cover a nonempty
list: the ceiling is the least sufficient page count. -/
theorem ceil_pred_mul_lt (len k : Nat) (hk : 0 < k) (hlen : 0 < len) :
    (((len + k - 1) / k) - 1) * k < len := by
  have h1 : ((len + k - 1) / k) * k ≤ len + k - 1 := Nat.div_mul_le_self _ _
  have h3 := Nat.sub_one_mul ((len + k - 1) / k) k
  omega

/-- C7: for page ≥ 1 and pageSize ≥ 1, the returned catalog page is the
slice of the filtered ordered set starting at `(page-1)*pageSize`, has
at most `pageSize` items, `total` is the size of the filtered set
before pagination, `pages` is exactly the ceiling `total/pageSize`
(least page count covering the set), and concatenating pages `1..pages`
reproduces the filtered ordered set — with no duplicates when the set
has none. -/
theorem catalog_pagination (cat : List Restaurant)
    (search location cuisine : Option String) (page limit : Nat)
    (hp : 1 ≤ page) (hl : 1 ≤ limit) :
    (getRestaurantsPage cat search location cuisine page limit).1 =
      ((catalogSorted cat search location cuisine).drop
        ((page - 1) * limit)).take limit ∧
    (getRestaurantsPage cat search location cuisine page limit).1.length
      ≤ limit ∧
    (getRestaurantsPage cat search location cuisine page limit).2.total =
      (catalogSorted cat search location cuisine).length ∧
    (getRestaurantsPage cat search location cuisine page limit).2.total ≤
      (getRestaurantsPage cat search location cuisine page limit).2.pages
        * limit ∧
    ((getRestaurantsPage cat search location cuisine page limit).2.total = 0 ∨
      ((getRestaurantsPage cat search location cuisine page limit).2.pages - 1)
        * limit <
        (getRestaurantsPage cat search location cuisine page limit).2.total) ∧
    ((List.range
        (getRestaurantsPage cat search location cuisine page limit).2.pages).map
      (fun i => (getRestaurantsPage cat search location cuisine (i + 1)
        limit).1)).flatten =
      catalogSorted cat search location cuisine ∧
    ((catalogSorted cat search location cuisine).Nodup →
      ((List.range
          (getRestaurantsPage cat search location cuisine page limit).2.pages).map
        (fun i => (getRestaurantsPage cat search location cuisine (i + 1)
          limit).1)).flatten.Nodup) := by
  have hflat : ((List.range
      (getRestaurantsPage cat search location cuisine page limit).2.pages).map
      (fun i => (getRestaurantsPage cat search location cuisine (i + 1)
        limit).1)).flatten =
      catalogSorted cat search location cuisine := by
    have hcov := le_ceil_mul (catalogSorted cat search location cuisine).length
      limit hl
    have h := flatten_chunks limit hl
      (((catalogSorted cat search location cuisine).length + limit - 1) / limit)
      (catalogSorted cat search location cuisine) hcov
    rw [List.map_congr_left (fun i _ => rfl :
      ∀ i ∈ List.range
        (getRestaurantsPage cat search location cuisine page limit).2.pages,
        (getRestaurantsPage cat search location cuisine (i + 1) limit).1 =
          (((catalogSorted cat search location cuisine).drop (i * limit)).take
            limit))]
    exact h
  refine ⟨rfl, ?_, rfl, ?_, ?_, hflat, ?_⟩
  · simp [getRestaurantsPage, getRestaurants, List.length_take]
  · exact le_ceil_mul _ _ hl
  · rcases Nat.eq_zero_or_pos
      (getRestaurantsPage cat search location cuisine page limit).2.total with
      h0 | h0
    · exact Or.inl h0
    · exact Or.inr (ceil_pred_mul_lt _ _ hl h0)
  · intro hnd
    rw [hflat]
    exact hnd

-- C7 witness: a three-restaurant catalog with page size 2: page 2
-- holds at most two items, total is 3 and pages is 2.
unseal List.merge List.mergeSort in
theorem catalog_pagination_witness :
    (getRestaurantsPage
      [⟨1, "B", "x", "d", "i", 48, "p", "c"⟩,
       ⟨2, "A", "y", "d", "i", 46, "p", "c"⟩,
       ⟨3, "C", "z", "d", "i", 48, "p", "c"⟩] none none none 2 2).1.length ≤ 2 ∧
    (getRestaurantsPage
      [⟨1, "B", "x", "d", "i", 48, "p", "c"⟩,
       ⟨2, "A", "y", "d", "i", 46, "p", "c"⟩,
       ⟨3, "C", "z", "d", "i", 48, "p", "c"⟩] none none none 2 2).2.total = 3 ∧
    (getRestaurantsPage
      [⟨1, "B", "x", "d", "i", 48, "p", "c"⟩,
       ⟨2, "A", "y", "d", "i", 46, "p", "c"⟩,
       ⟨3, "C", "z", "d", "i", 48, "p", "c"⟩] none none none 2 2).2.pages = 2 := by
  have h := catalog_pagination
    [⟨1, "B", "x", "d", "i", 48, "p", "c"⟩,
     ⟨2, "A", "y", "d", "i", 46, "p", "c"⟩,
     ⟨3, "C", "z", "d", "i", 48, "p", "c"⟩] none none none 2 2
    (by decide) (by decide)
  refine ⟨h.2.1, ?_, ?_⟩
  · rw [h.2.2.1]
    decide
  · decide

/-- C8: a login attempt with a wrong password fails with the same 401
response whether the email exists or not: the handler returns the
literal `Invalid email or password` failure in both branches, so two
stores differing only in the email's existence are indistinguishable
to the caller. -/
theorem login_no_existence_leak (bverify : String → String → Bool)
    (users1 users2 : List User) (email password : String) (u : User)
    (h1 : users1.find? (fun x => x.email == email) = none)
    (h2 : users2.find? (fun x => x.email == email) = some u)
    (h3 : bverify password u.password = false) :
    login bverify users1 email password =
      .failure 401 "Invalid email or password" ∧
    login bverify users2 email password =
      .failure 401 "Invalid email or password" ∧
    login bverify users1 email password =
      login bverify users2 email password := by
  have ha : login bverify users1 email password =
      .failure 401 "Invalid email or password" := by
    simp [login, h1]
  have hb : login bverify users2 email password =
      .failure 401 "Invalid email or password" := by
    simp [login, h2, h3]
  exact ⟨ha, hb, ha.trans hb.symm⟩

/-- C8 witness: an empty user table versus a table holding the email
with a non-matching stored hash, under hash-equality verification. -/
theorem login_no_existence_leak_witness :
    login (fun p h => p == h) [] "a@b.c" "pw" =
      .failure 401 "Invalid email or password" ∧
    login (fun p h => p == h) [⟨1, "n", "a@b.c", "other"⟩] "a@b.c" "pw" =
      .failure 401 "Invalid email or password" ∧
    login (fun p h => p == h) [] "a@b.c" "pw" =
      login (fun p h => p == h) [⟨1, "n", "a@b.c", "other"⟩] "a@b.c" "pw" :=
  login_no_existence_leak (fun p h => p == h) []
    [⟨1, "n", "a@b.c", "other"⟩] "a@b.c" "pw" ⟨1, "n", "a@b.c", "other"⟩
    (by decide) (by decide) (by decide)

/-- C9: with MySQL down and the in-memory fallback active (exactly the
state `initDatabase` produces when the connection fails), every
reservation endpoint still goes to the MySQL pool and so answers the
500 internal error without touching any store, while the catalog
endpoint checks the fallback flag and keeps serving data. -/
theorem fallback_reservations_fail (st : SysState)
    (hmem : st.usingInMemory = true) (hup : st.mysqlUp = false)
    (uid id now newId page limit : Nat) (today : String)
    (req : CreateReq) (ureq : UpdateReq)
    (statusFilter search location cuisine : Option String) :
    (∀ st0 : SysState, st0.mysqlUp = false →
      (initDatabase st0).usingInMemory = true) ∧
    createReservationHandler st uid today now newId req =
      (.internalError, st) ∧
    listForUserHandler st uid statusFilter page limit = .internalError ∧
    getOwnedHandler st id uid = .internalError ∧
    updateReservationHandler st id uid today now ureq =
      (.internalError, st) ∧
    cancelReservationHandler st id uid now = (.internalError, st) ∧
    getRestaurantsHandler st search location cuisine page limit =
      .catalog (getRestaurantsPage st.memRestaurants search location cuisine
          page limit).1
        (getRestaurantsPage st.memRestaurants search location cuisine
          page limit).2 := by
  refine ⟨?_, ?_, ?_, ?_, ?_, ?_, ?_⟩
  · intro st0 h0
    simp [initDatabase, h0]
  · simp [createReservationHandler, hup]
  · simp [listForUserHandler, hup]
  · simp [getOwnedHandler, hup]
  · simp [updateReservationHandler, hup]
  · simp [cancelReservationHandler, hup]
  · simp [getRestaurantsHandler, hmem]

-- C9 witness: a concrete fallback-mode state with a seeded in-memory
-- catalog: every reservation endpoint answers internalError and the
-- catalog endpoint serves the in-memory restaurant.
unseal List.merge List.mergeSort in
theorem fallback_reservations_fail_witness :
    createReservationHandler
      ⟨false, true, [], [⟨1, "A", "x", "d", "i", 48, "p", "c"⟩], [], []⟩ 1
      "2026-10-11" 0 1 ⟨1, "2026-10-12", "19:00", 2, none⟩ =
      (.internalError,
        ⟨false, true, [], [⟨1, "A", "x", "d", "i", 48, "p", "c"⟩], [], []⟩) ∧
    getOwnedHandler
      ⟨false, true, [], [⟨1, "A", "x", "d", "i", 48, "p", "c"⟩], [], []⟩ 1 1 =
      .internalError ∧
    getRestaurantsHandler
      ⟨false, true, [], [⟨1, "A", "x", "d", "i", 48, "p", "c"⟩], [], []⟩
      none none none 1 10 =
      .catalog [⟨1, "A", "x", "d", "i", 48, "p", "c"⟩] ⟨1, 10, 1, 1⟩ := by
  have h := fallback_reservations_fail
    ⟨false, true, [], [⟨1, "A", "x", "d", "i", 48, "p", "c"⟩], [], []⟩
    rfl rfl 1 1 0 1 1 10 "2026-10-11" ⟨1, "2026-10-12", "19:00", 2, none⟩
    ⟨none, none, none, none⟩ none none none none
  refine ⟨h.2.1, h.2.2.2.1, ?_⟩
  rw [h.2.2.2.2.2.2]
  decide
